import Mathlib

/-!
Verification of the Workload Orchestration & Resource-Isolated Execution
Engine of the PageCache-Fairness repository (`src/fairness_benchmark.cpp`,
second variant, lines 849-1960 of the shipped file; all cited line numbers
refer to that variant).  C++ strings are embedded as `List Char`, C++ `int`
as `Int`, `uintmax_t`/sizes as `Nat`.  External effects (filesystem state,
process spawns, shell commands) are made explicit: oracles parameterize the
state the code inspects, and the commands the code would issue are returned
as data.  Definitions come first, then all theorems.
-/

namespace FairnessBench

/-- C++ `std::string` contents. -/
abbrev Str := List Char

/-- Character class used by the trimming calls `find_first_not_of(" \t")` /
`find_last_not_of(" \t")`. -/
def isSpaceTab (c : Char) : Bool := c == ' ' || c == '\t'

/-- Character class of `find_last_not_of(" \t\r\n")` in `parse_cgroup_config`
(line 1043). -/
def isTrimWSRight (c : Char) : Bool := c == ' ' || c == '\t' || c == '\r' || c == '\n'

/-- Drop leading characters in class `p`: models `erase(0, find_first_not_of ...)`. -/
def trimLeft (p : Char → Bool) (s : Str) : Str := s.dropWhile p

/-- Drop trailing characters in class `p`: models `erase(find_last_not_of ... + 1)`. -/
def trimRight (p : Char → Bool) (s : Str) : Str := (s.reverse.dropWhile p).reverse

/-- Trim both ends. -/
def trimBy (p : Char → Bool) (s : Str) : Str := trimRight p (trimLeft p s)

/-- Value of a digit character. -/
def digitVal (c : Char) : Nat := c.toNat - '0'.toNat

/-- Decimal value of a digit string. -/
def digitsToNat (l : Str) : Nat := l.foldl (fun a c => a * 10 + digitVal c) 0

/-- Maximal decimal-digit run at the front, `none` when there is no digit
(the C++ conversion functions throw `std::invalid_argument` then). -/
def digitsPrefix? (t : Str) : Option Nat :=
  let ds := t.takeWhile Char.isDigit
  if ds.isEmpty then none else some (digitsToNat ds)

/-- Model of `std::stoull` into a 64-bit `unsigned long long`: skip
leading spaces/tabs, optional `+`, then a decimal digit run; `none`
models the thrown exception, both `std::invalid_argument` when no digit
is found and `std::out_of_range` when the numeral's value does not fit in
64 bits.  (A leading `-`, which `std::stoull` accepts and wraps modulo
2^64, is not modelled; no configuration in scope uses negative sizes.) -/
def stoull? (s : Str) : Option Nat :=
  let t := s.dropWhile isSpaceTab
  let d := if t.head? = some '+' then digitsPrefix? t.tail else digitsPrefix? t
  match d with
  | none => none
  | some v => if v < 2 ^ 64 then some v else none

/-- Model of `std::stoi`: skip leading spaces/tabs, optional sign, decimal
digit run; `none` models the thrown exception. -/
def stoi? (s : Str) : Option Int :=
  let t := s.dropWhile isSpaceTab
  if t.head? = some '-' then (digitsPrefix? t.tail).map (fun n => -(n : Int))
  else if t.head? = some '+' then (digitsPrefix? t.tail).map (fun n => (n : Int))
  else (digitsPrefix? t).map (fun n => (n : Int))

/-- `get_size_bytes` (lines 1217-1241): parse a size string with K/M/G/T
suffix (either case), base 1024; empty string yields 0; no suffix means
plain bytes.  The product `stoull(numeric) * multiplier` is computed in
`uintmax_t` (64-bit), so it reduces modulo 2^64. -/
def get_size_bytes (s : Str) : Option Nat :=
  match s.getLast? with
  | none => some 0
  | some unit =>
    if unit = 'K' ∨ unit = 'k' then
      (stoull? s.dropLast).map (fun v => v * 1024 % 2 ^ 64)
    else if unit = 'M' ∨ unit = 'm' then
      (stoull? s.dropLast).map (fun v => v * (1024 * 1024) % 2 ^ 64)
    else if unit = 'G' ∨ unit = 'g' then
      (stoull? s.dropLast).map (fun v => v * (1024 * 1024 * 1024) % 2 ^ 64)
    else if unit = 'T' ∨ unit = 't' then
      (stoull? s.dropLast).map (fun v => v * (1024 * 1024 * 1024 * 1024) % 2 ^ 64)
    else stoull? s

/-- Outcome of `create_test_file` (lines 1243-1275).  `reuse` is the early
return on an existing, large-enough file; `created` records the `dd`
invocation (its 1MiB block count); `invalidSize` is the `exit(1)` on a
zero-byte parse; `sizeCrash` models the uncaught `std::stoull` exception. -/
inductive ProvisionOutcome where
  | reuse
  | created (ddCount : Nat)
  | invalidSize
  | sizeCrash
deriving DecidableEq

/-- The creation path of `create_test_file` (lines 1254-1274): re-parse the
size, `exit(1)` when it is zero, otherwise run `dd` with bs=1M and
count = size / 1MiB. -/
def createViaDD (file_size : Str) : ProvisionOutcome :=
  match get_size_bytes file_size with
  | none => .sizeCrash
  | some 0 => .invalidSize
  | some sz => .created (sz / (1024 * 1024))

/-- `create_test_file` (lines 1243-1275).  The filesystem is abstracted by
`existsAtPath` (`fs::exists`) and `actual_size` (`fs::file_size`, read only
when the file exists). -/
def create_test_file (file_size : Str) (existsAtPath : Bool) (actual_size : Nat) :
    ProvisionOutcome :=
  if existsAtPath then
    match get_size_bytes file_size with
    | none => .sizeCrash
    | some expected =>
      if actual_size ≥ expected then .reuse else createViaDD file_size
  else createViaDD file_size

/-- Number of filesystem-writing commands each outcome issues: only the
`dd` path writes; `reuse` and the two error exits issue none. -/
def provisionWriteCount : ProvisionOutcome → Nat
  | .reuse => 0
  | .created _ => 1
  | .invalidSize => 0
  | .sizeCrash => 0

/-! ### Configuration model (`PhaseConfig`, `WorkloadConfig`, lines 867-891) -/

/-- `struct PhaseConfig` (lines 867-876). -/
structure PhaseConfig where
  runtime : Int
  block_size : Str
  iodepth : Int
  pattern : Str
  ioengine : Str
  numjobs : Int
  file_size : Str
  rate_iops : Int
deriving DecidableEq

/-- The aggregate initializer `PhaseConfig{0, "", 0, "", "", 0, "", 0}`
(line 1755). -/
def PhaseConfig.default0 : PhaseConfig := ⟨0, [], 0, [], [], 0, [], 0⟩

/-- `struct WorkloadConfig` (lines 878-891). -/
structure WorkloadConfig where
  description : Str
  file_size : Str
  numjobs : Int
  rate_iops : Int
  block_size : Str
  runtime : Int
  iodepth : Int
  pattern : Str
  ioengine : Str
  phases : List PhaseConfig
deriving DecidableEq

/-- `WorkloadConfig()` value-initialization (line 1729): ints zero, strings
empty, no phases. -/
def WorkloadConfig.default0 : WorkloadConfig := ⟨[], [], 0, 0, [], 0, 0, [], [], []⟩

/-- The temporary `std::map<int, PhaseConfig> phase_map` (line 1711),
embedded as an association list kept sorted ascending by key, which is the
iteration order `std::map` guarantees. -/
abbrev PhaseMap := List (Int × PhaseConfig)

/-- `phase_map.find` / `operator[]` lookup. -/
def pmLookup : PhaseMap → Int → Option PhaseConfig
  | [], _ => none
  | (k, v) :: rest, n => if n = k then some v else pmLookup rest n

/-- `phase_map[n] = v`: ordered upsert preserving `std::map`'s
sorted-by-key iteration order. -/
def pmSet : PhaseMap → Int → PhaseConfig → PhaseMap
  | [], n, v => [(n, v)]
  | (k, w) :: rest, n, v =>
    if n < k then (n, v) :: (k, w) :: rest
    else if n = k then (n, v) :: rest
    else (k, w) :: pmSet rest n v

/-- Generic association-list upsert for the `std::map<std::string, _>`
members (`workloads`, `settings`, `cgroups`).  Their iteration order is
never observed by the properties in scope, so insertion order stands in for
`std::map`'s name-sorted order. -/
def assocSet {α : Type} : List (Str × α) → Str → α → List (Str × α)
  | [], k, v => [(k, v)]
  | (k', v') :: rest, k, v =>
    if k = k' then (k, v) :: rest else (k', v') :: assocSet rest k v

/-- Association-list lookup (`std::map::find`). -/
def assocFind {α : Type} : List (Str × α) → Str → Option α
  | [], _ => none
  | (k', v') :: rest, k => if k = k' then some v' else assocFind rest k

/-! ### `parse_config_file` (lines 1702-1792) -/

/-- The `phase_<N>_<param>` dispatch (lines 1758-1765): update one field of
a phase accumulator; unknown params leave it unchanged (but the entry was
already default-created, line 1755); `none` models the `std::stoi`
exception for numeric params. -/
def applyPhaseParam (param value : Str) (p : PhaseConfig) : Option PhaseConfig :=
  if param = "runtime".data then (stoi? value).map (fun v => { p with runtime := v })
  else if param = "block_size".data then some { p with block_size := value }
  else if param = "iodepth".data then (stoi? value).map (fun v => { p with iodepth := v })
  else if param = "pattern".data then some { p with pattern := value }
  else if param = "ioengine".data then some { p with ioengine := value }
  else if param = "numjobs".data then (stoi? value).map (fun v => { p with numjobs := v })
  else if param = "file_size".data then some { p with file_size := value }
  else if param = "rate_iops".data then (stoi? value).map (fun v => { p with rate_iops := v })
  else some p

/-- Index of the first occurrence of `c` (`std::string::find`), `none` for
`npos`. -/
def idxOf? (c : Char) : Str → Option Nat
  | [] => none
  | x :: xs => if x = c then some 0 else (idxOf? c xs).map (· + 1)

/-- `find(c, start)`: first occurrence at index ≥ `start`. -/
def idxOfFrom? (c : Char) (s : Str) (start : Nat) : Option Nat :=
  (idxOf? c (s.drop start)).map (· + start)

/-- The key/value split with whitespace trimming of `parse_config_file`
(lines 1735-1744): split at the first `=`, trim both key and value of
surrounding spaces/tabs.  Note: no inline-comment stripping happens here. -/
def workloadKV (line : Str) : Option (Str × Str) :=
  match idxOf? '=' line with
  | none => none
  | some i =>
    some (trimBy isSpaceTab (line.take i), trimBy isSpaceTab (line.drop (i + 1)))

/-- One `key=value` line applied to the in-flight section accumulator
(lines 1734-1778). -/
def kvStep (cw : WorkloadConfig) (pm : PhaseMap) (line : Str) :
    Option (WorkloadConfig × PhaseMap) :=
  match workloadKV line with
  | none => some (cw, pm)
  | some (key, value) =>
    if key.take 6 = "phase_".data then
      match idxOfFrom? '_' key 6 with
      | none => some (cw, pm)
      | some u =>
        match stoi? ((key.drop 6).take (u - 6)) with
        | none => none
        | some n =>
          let param := key.drop (u + 1)
          let base := (pmLookup pm n).getD PhaseConfig.default0
          match applyPhaseParam param value base with
          | none => none
          | some p' => some (cw, pmSet pm n p')
    else if key = "description".data then some ({ cw with description := value }, pm)
    else if key = "file_size".data then some ({ cw with file_size := value }, pm)
    else if key = "block_size".data then some ({ cw with block_size := value }, pm)
    else if key = "runtime".data then (stoi? value).map (fun v => ({ cw with runtime := v }, pm))
    else if key = "numjobs".data then (stoi? value).map (fun v => ({ cw with numjobs := v }, pm))
    else if key = "iodepth".data then (stoi? value).map (fun v => ({ cw with iodepth := v }, pm))
    else if key = "pattern".data then some ({ cw with pattern := value }, pm)
    else if key = "ioengine".data then some ({ cw with ioengine := value }, pm)
    else if key = "rate_iops".data then (stoi? value).map (fun v => ({ cw with rate_iops := v }, pm))
    else some (cw, pm)

/-- The declared phase number of a line, when the line takes the
phase-update branch of `kvStep` with a parseable `<N>` (mirrors lines
1746-1751). -/
def phaseNumOf (line : Str) : Option Int :=
  match workloadKV line with
  | none => none
  | some (key, _) =>
    if key.take 6 = "phase_".data then
      match idxOfFrom? '_' key 6 with
      | none => none
      | some u => stoi? ((key.drop 6).take (u - 6))
    else none

/-- Skip rule of the parse loop (line 1715): empty line or one starting
with `#` or `;`. -/
def skipLine (l : Str) : Bool :=
  match l with
  | [] => true
  | c :: _ => c == '#' || c == ';'

/-- Section-header shape (line 1720): first char `[` and last char `]`. -/
def headerLine (l : Str) : Bool :=
  match l with
  | [] => false
  | c :: _ => c == '[' && l.getLast? == some ']'

/-- Whether a line takes the section-header branch (checked after the
skip rule). -/
def headerTaken (l : Str) : Bool := !skipLine l && headerLine l

/-- State of the parse loop (lines 1709-1711), plus the warnings the loop
would log: `parse_config_file` contains no warning-emitting call, so no
step ever appends to it. -/
structure ParseState where
  workloads : List (Str × WorkloadConfig)
  current_section : Str
  current_workload : WorkloadConfig
  phase_map : PhaseMap
  warnings : List Str
deriving DecidableEq

/-- Closing the in-flight section (lines 1720-1727 and 1781-1788): append
the phase accumulator's values, in `std::map` key order, to the
workload's phases and store it; nothing is stored before the first
header. -/
def closeSection (st : ParseState) : List (Str × WorkloadConfig) :=
  if st.current_section.isEmpty then st.workloads
  else
    assocSet st.workloads st.current_section
      { st.current_workload with
        phases := st.current_workload.phases ++ st.phase_map.map Prod.snd }

/-- One iteration of the `while (std::getline(...))` loop
(lines 1713-1779). -/
def lineStep (st : ParseState) (line : Str) : Option ParseState :=
  if skipLine line then some st
  else if headerLine line then
    some { workloads := closeSection st,
           current_section := (line.drop 1).take (line.length - 2),
           current_workload := WorkloadConfig.default0,
           phase_map := [],
           warnings := st.warnings }
  else
    (kvStep st.current_workload st.phase_map line).map
      (fun cwpm => { st with current_workload := cwpm.1, phase_map := cwpm.2 })

/-- The parse loop over the remaining lines. -/
def parseLinesFrom (st : ParseState) : List Str → Option ParseState
  | [] => some st
  | l :: ls =>
    match lineStep st l with
    | none => none
    | some st' => parseLinesFrom st' ls

/-- Initial parse state. -/
def initState : ParseState := ⟨[], [], WorkloadConfig.default0, [], []⟩

/-- Result of `parse_config_file`: the workload map, the warnings logged
while parsing, and the returned boolean `!workloads.empty()`
(line 1791). -/
structure ParseOutput where
  workloads : List (Str × WorkloadConfig)
  warnings : List Str
  ok : Bool
deriving DecidableEq

/-- `parse_config_file` (lines 1702-1792) on the file's lines; `none`
models an uncaught `std::stoi` exception aborting the program. -/
def parse_config_file (lines : List Str) : Option ParseOutput :=
  (parseLinesFrom initState lines).map
    (fun st =>
      { workloads := closeSection st,
        warnings := st.warnings,
        ok := !(closeSection st).isEmpty })

/-! ### `parse_cgroup_config` key/value handling (lines 1023-1086) -/

/-- The per-line trim of `parse_cgroup_config` (lines 1042-1043): leading
spaces/tabs, then trailing spaces/tabs/CR/LF. -/
def cgroupTrimLine (l : Str) : Str := trimRight isTrimWSRight (trimLeft isSpaceTab l)

/-- The key/value extraction of `parse_cgroup_config` on an
already-trimmed line (lines 1057-1069): split at the first `=`, right-trim
the key, left-trim the value, then strip an inline `#` comment and
right-trim again. -/
def cgroupKVCore (line : Str) : Option (Str × Str) :=
  match idxOf? '=' line with
  | none => none
  | some i =>
    let key := trimRight isSpaceTab (line.take i)
    let v0 := trimLeft isSpaceTab (line.drop (i + 1))
    let value :=
      match idxOf? '#' v0 with
      | some j => trimRight isSpaceTab (v0.take j)
      | none => v0
    some (key, value)

/-- Full per-line key/value result of `parse_cgroup_config`
(lines 1041-1076): trim the raw line, skip blank/comment lines, skip
section headers, then extract. -/
def cgroupKV (raw : Str) : Option (Str × Str) :=
  let line := cgroupTrimLine raw
  if line.isEmpty then none
  else if line.head? = some '#' then none
  else if line.head? = some '[' then none
  else cgroupKVCore line

/-- An optional edge character that is not a space or tab. -/
def edgeOk (oc : Option Char) : Bool :=
  match oc with
  | some c => !(isSpaceTab c)
  | none => true

/-- A string with no leading and no trailing space/tab. -/
def isTrimmedST (s : Str) : Bool := edgeOk s.head? && edgeOk s.getLast?

/-- The concrete workload-configuration line showing that
`parse_config_file` does not strip inline comments. -/
def c5Line : Str := "file_size = 1G # big".data

/-- A configuration whose phase numbers have a gap (1 and 3, no 2). -/
def c6GapCfg : List Str :=
  ["[w]".data, "phase_1_runtime=10".data, "phase_1_block_size=4k".data,
   "phase_1_iodepth=1".data, "phase_1_pattern=read".data,
   "phase_3_runtime=20".data, "phase_3_block_size=1m".data,
   "phase_3_iodepth=4".data, "phase_3_pattern=write".data]

/-- The `[name]` header line for a section. -/
def sectionHeaderOf (name : Str) : Str := '[' :: (name ++ [']'])

/-- The effect of a single-section body on the `(current_workload,
phase_map)` accumulator: exactly the skip/key-value part of the parse
loop. -/
def foldSection : WorkloadConfig × PhaseMap → List Str → Option (WorkloadConfig × PhaseMap)
  | acc, [] => some acc
  | acc, l :: ls =>
    if skipLine l then foldSection acc ls
    else
      match kvStep acc.1 acc.2 l with
      | none => none
      | some acc' => foldSection acc' ls

/-- Out-of-numeric-order phase declarations used as the C2 witness input. -/
def c2Lines : List Str :=
  ["phase_2_runtime=20".data, "phase_2_block_size=1m".data,
   "phase_1_runtime=10".data, "phase_1_block_size=4k".data]

/-! ### Resource groups: `parse_cgroup_config` state, `setup_cgroup`,
`add_pid_to_cgroup`, `cleanup_cgroups`, `setup_all_cgroups`
(lines 960-1215) -/

/-- `struct CgroupConfig` (lines 893-896). -/
structure CgroupConfig where
  cgroup_name : Str
  settings : List (Str × Str)
deriving DecidableEq

/-- The benchmark members the resource-group operations read
(`use_cgroups`, `cgroups`). -/
structure CgState where
  use_cgroups : Bool
  cgroups : List (Str × CgroupConfig)
deriving DecidableEq

/-- Loop state of `parse_cgroup_config` (lines 1037-1039). -/
structure CgParseState where
  cgroups : List (Str × CgroupConfig)
  current_client : Str
  current_cgroup : CgroupConfig

/-- One iteration of the `parse_cgroup_config` line loop
(lines 1041-1077): trim, skip blank/`#` lines, open a section on `[`,
otherwise store a key/value pair (`cgroup_name` is special-cased). -/
def cgLineStep (st : CgParseState) (raw : Str) : CgParseState :=
  let line := cgroupTrimLine raw
  if line.isEmpty then st
  else if line.head? = some '#' then st
  else if line.head? = some '[' then
    { cgroups :=
        if st.current_client.isEmpty then st.cgroups
        else assocSet st.cgroups st.current_client st.current_cgroup,
      current_client :=
        match idxOf? ']' line with
        | some j => (line.drop 1).take (j - 1)
        | none => line.drop 1,
      current_cgroup := ⟨[], []⟩ }
  else
    match cgroupKVCore line with
    | none => st
    | some (key, value) =>
      if key = "cgroup_name".data then
        { st with current_cgroup := { st.current_cgroup with cgroup_name := value } }
      else
        { st with current_cgroup :=
            { st.current_cgroup with
              settings := assocSet st.current_cgroup.settings key value } }

/-- `parse_cgroup_config` (lines 1023-1086).  `fileExists` abstracts the
`fs::exists` / `is_open` checks (a missing or unopenable file disables
cgroups and still returns `true`); otherwise the lines are folded and the
last section is stored. -/
def parse_cgroup_config (fileExists : Bool) (lines : List Str) (st : CgState) :
    Bool × CgState :=
  if !fileExists then (true, { st with use_cgroups := false })
  else
    let fin := lines.foldl cgLineStep ⟨st.cgroups, [], ⟨[], []⟩⟩
    let cgs :=
      if fin.current_client.isEmpty then fin.cgroups
      else assocSet fin.cgroups fin.current_client fin.current_cgroup
    (true, { st with cgroups := cgs })

/-- Host-global state the cgroup operations consult through `system` calls:
whether systemd manages the cgroup tree, and whether each mkdir / control
file / tee write succeeds. -/
structure Host where
  is_systemd : Bool
  mkdir_ok : Str → Bool
  ctl_file_exists : Str → Bool
  tee_ok : Str → Bool

/-- Host-mutating shell commands the cgroup operations issue (read-only
checks such as `test -f` and the systemd probe are not listed). -/
inductive CgCmd where
  | mkdirp (path : Str)
  | enableSubtree (path : Str)
  | writeCtl (file value : Str)
  | addPid (file : Str) (pid : Int)
  | killGroup (path : Str)
  | rmdirGroup (path : Str)
deriving DecidableEq

/-- The base cgroup path (lines 1101-1110, 1120): under systemd the
`user.slice` subtree is used. -/
def cgBasePath (h : Host) : Str :=
  if h.is_systemd then "/sys/fs/cgroup/user.slice".data else "/sys/fs/cgroup".data

/-- `setup_cgroup` (lines 1088-1183): no-op without cgroups or without a
config for the client; otherwise mkdir the group, enable controllers in
the base (and any intermediate) directory, and write each setting whose
control file exists.  The success/fail counters only drive logging and are
not modelled; the function always returns `true`. -/
def setup_cgroup (h : Host) (st : CgState) (client : Str) : Bool × List CgCmd :=
  if !st.use_cgroups then (true, [])
  else
    match assocFind st.cgroups client with
    | none => (true, [])
    | some cg =>
      let path := cgBasePath h ++ "/".data ++ cg.cgroup_name
      if !h.mkdir_ok path then (true, [CgCmd.mkdirp path])
      else
        let interCmds :=
          match idxOf? '/' cg.cgroup_name with
          | some i =>
            let ip := cgBasePath h ++ "/".data ++ cg.cgroup_name.take i
            [CgCmd.mkdirp ip, CgCmd.enableSubtree ip]
          | none => []
        let settingCmds := cg.settings.flatMap (fun kv =>
          let f := path ++ "/".data ++ kv.1
          if h.ctl_file_exists f then [CgCmd.writeCtl f kv.2] else [])
        (true, CgCmd.mkdirp path :: CgCmd.enableSubtree (cgBasePath h)
                :: (interCmds ++ settingCmds))

/-- `add_pid_to_cgroup` (lines 1185-1215): no-op without cgroups or
without a config for the client; otherwise one `tee` into
`cgroup.procs`, returning whether it succeeded. -/
def add_pid_to_cgroup (h : Host) (st : CgState) (client : Str) (pid : Int) :
    Bool × List CgCmd :=
  if !st.use_cgroups then (true, [])
  else
    match assocFind st.cgroups client with
    | none => (true, [])
    | some cg =>
      let f := cgBasePath h ++ "/".data ++ cg.cgroup_name ++ "/cgroup.procs".data
      (h.tee_ok f, [CgCmd.addPid f pid])

/-- `cleanup_cgroups` (lines 974-1010): no-op without cgroups; otherwise
kill the members of and remove every configured group, then the parent
`clients` group. -/
def cleanup_cgroups (h : Host) (st : CgState) : List CgCmd :=
  if !st.use_cgroups then []
  else
    (st.cgroups.flatMap (fun nc =>
      let p := cgBasePath h ++ "/".data ++ nc.2.cgroup_name
      [CgCmd.killGroup p, CgCmd.rmdirGroup p]))
    ++ [CgCmd.killGroup (cgBasePath h ++ "/clients".data),
        CgCmd.rmdirGroup (cgBasePath h ++ "/clients".data)]

/-- `setup_all_cgroups` (lines 960-972): no-op without cgroups; otherwise
clean up existing groups first, then set up every configured group. -/
def setup_all_cgroups (h : Host) (st : CgState) : List CgCmd :=
  if !st.use_cgroups then []
  else
    cleanup_cgroups h st
    ++ st.cgroups.flatMap (fun nc => (setup_cgroup h st nc.1).2)

/-! ### Phase naming, fio invocations, reconciliation and the run driver
(`run_workload` lines 1277-1475, `run_concurrent_clients` lines 1477-1588,
`run_client_process` lines 1590-1651, `run` lines 1884-1933) -/

/-- `std::to_string` for the nonnegative values in scope (fuel-structured
so it reduces by kernel evaluation). -/
def natToStrAux : Nat → Nat → Str
  | 0, _ => []
  | fuel + 1, n =>
    if n < 10 then [Char.ofNat (48 + n)]
    else natToStrAux fuel (n / 10) ++ [Char.ofNat (48 + n % 10)]

/-- Decimal rendering of a `Nat`. -/
def natToStr (n : Nat) : Str := natToStrAux (n + 1) n

/-- The phase job name `<test_name>_phase<i>` (lines 1333, 1598): `i` is
the 1-based POSITION in the assembled phases vector (`phase_idx + 1`), not
the phase number declared in the configuration key. -/
def phaseJobName (tn : Str) (i : Nat) : Str := tn ++ "_phase".data ++ natToStr i

/-- The phase artifact path `<output_dir>/<test_name>_phase<i>.json`
(lines 1334, 1404-1405, 1599). -/
def phaseArtifactPath (odir tn : Str) (i : Nat) : Str :=
  odir ++ "/".data ++ phaseJobName tn i ++ ".json".data

/-- One external load-generator (fio) invocation: the parameters the
engine passes.  `none` in an `Option` field means the corresponding flag
is omitted from the command line entirely. -/
structure FioInvocation where
  jobname : Str
  filename : Str
  size : Str
  runtime : Int
  rw : Str
  bs : Str
  numjobs : Int
  iodepth : Int
  ioengine : Option Str
  rate_iops : Option Int
  perSecondLogs : Option Str
  statusInterval : Option Int
  output : Str
  direct : Bool
deriving DecidableEq

/-- The per-phase fio command `run_workload` builds (lines 1336-1384),
including the override-then-fallback computation of the effective file
size, numjobs and rate (lines 1337-1339): empty/zero phase values fall
back to the workload defaults; `--ioengine` is emitted only when the
PHASE ioengine is nonempty (line 1369) and `--rate_iops` only when the
effective rate is positive (line 1373). -/
def phaseFioWorkload (odir script_dir : Str) (cfg : WorkloadConfig) (phase : PhaseConfig)
    (tn : Str) (phase_idx : Nat) (cache_mode : Str) : FioInvocation :=
  let phase_name := phaseJobName tn (phase_idx + 1)
  let phase_file_size := if phase.file_size.isEmpty then cfg.file_size else phase.file_size
  let phase_numjobs := if phase.numjobs > 0 then phase.numjobs else cfg.numjobs
  let phase_rate_iops := if phase.rate_iops > 0 then phase.rate_iops else cfg.rate_iops
  { jobname := phase_name,
    filename := script_dir ++ "/test_file_".data ++ phase_file_size,
    size := phase_file_size,
    runtime := phase.runtime,
    rw := phase.pattern,
    bs := phase.block_size,
    numjobs := phase_numjobs,
    iodepth := phase.iodepth,
    ioengine := if !phase.ioengine.isEmpty then some phase.ioengine else none,
    rate_iops := if phase_rate_iops > 0 then some phase_rate_iops else none,
    perSecondLogs := none,
    statusInterval := some 5,
    output := odir ++ "/".data ++ phase_name ++ ".json".data,
    direct := cache_mode == "direct".data }

/-- The per-phase fio command `run_client_process` builds
(lines 1596-1646): identical effective-value computation
(lines 1603-1605), plus per-second latency/bandwidth/IOPS logging and no
status interval. -/
def phaseFioClient (odir script_dir : Str) (cfg : WorkloadConfig) (phase : PhaseConfig)
    (client_name cache_mode : Str) (phase_idx : Nat) : FioInvocation :=
  let phase_name := phaseJobName (client_name ++ "_".data ++ cache_mode) (phase_idx + 1)
  let phase_file_size := if phase.file_size.isEmpty then cfg.file_size else phase.file_size
  let phase_numjobs := if phase.numjobs > 0 then phase.numjobs else cfg.numjobs
  let phase_rate_iops := if phase.rate_iops > 0 then phase.rate_iops else cfg.rate_iops
  { jobname := phase_name,
    filename := script_dir ++ "/test_file_".data ++ phase_file_size,
    size := phase_file_size,
    runtime := phase.runtime,
    rw := phase.pattern,
    bs := phase.block_size,
    numjobs := phase_numjobs,
    iodepth := phase.iodepth,
    ioengine := if !phase.ioengine.isEmpty then some phase.ioengine else none,
    rate_iops := if phase_rate_iops > 0 then some phase_rate_iops else none,
    perSecondLogs := some (odir ++ "/".data ++ phase_name),
    statusInterval := none,
    output := odir ++ "/".data ++ phase_name ++ ".json".data,
    direct := cache_mode == "direct".data }

/-- The reconciliation scan of `run_workload` (lines 1400-1413): try the
phase artifacts in DESCENDING positional order `N, N-1, ..., 1`; the first
one that exists (`fsO` returns its content) and has size > 0 is copied to
the canonical output.  Returns the chosen path and the copied content. -/
def mergeScan (fsO : Str → Option (List Nat)) (odir tn : Str) : Nat → Option (Str × List Nat)
  | 0 => none
  | i + 1 =>
    match fsO (phaseArtifactPath odir tn (i + 1)) with
    | some c =>
      if 0 < c.length then some (phaseArtifactPath odir tn (i + 1), c)
      else mergeScan fsO odir tn i
    | none => mergeScan fsO odir tn i

/-- Full reconciliation outcome (lines 1398-1417): the canonical copy and
the warning logged when no phase artifact qualifies (line 1415); nothing
happens for a zero-phase workload (the guard at line 1400). -/
structure MergeOutcome where
  canonical : Option (Str × List Nat)
  warnings : List Str
deriving DecidableEq

/-- The merge step over `n` phase artifacts. -/
def mergeOutcome (fsO : Str → Option (List Nat)) (odir tn : Str) (n : Nat) : MergeOutcome :=
  if 0 < n then
    match mergeScan fsO odir tn n with
    | some r => ⟨some r, []⟩
    | none => ⟨none, ["  Warning: No valid phase results to merge for ".data ++ tn]⟩
  else ⟨none, []⟩

/-- A phase artifact qualifies for reconciliation when it exists and is
non-empty. -/
def qualifies (fsO : Str → Option (List Nat)) (odir tn : Str) (j : Nat) : Prop :=
  ∃ c, fsO (phaseArtifactPath odir tn j) = some c ∧ c ≠ []

/-- The boolean `run_workload` returns (lines 1277-1475): `false` only
when the workload is not in the map (line 1281); every other path,
including a failed reconciliation, returns `true` (line 1474). -/
def run_workload_ok (wls : List (Str × WorkloadConfig)) (nm : Str) : Bool :=
  (assocFind wls nm).isSome

/-- The probe order of the reconciliation loop: positions `n, n-1, ..., 1`. -/
def mergeProbeOrder : Nat → List Nat
  | 0 => []
  | n + 1 => (n + 1) :: mergeProbeOrder n

/-- The artifact paths the reconciliation loop probes, in loop order. -/
def mergeProbePaths (odir tn : Str) (n : Nat) : List Str :=
  (mergeProbeOrder n).map (phaseArtifactPath odir tn)

/-- Process-level events of a run: the iostat monitor fork, the
client-process forks of the concurrent mode, and the fio launches. -/
inductive Event where
  | spawnMonitor (iostatPath : Str)
  | spawnClient (tag : Str)
  | launchFio (jobname : Str)
deriving DecidableEq

/-- Cache-mode filter expansion (lines 1305-1310, 1517-1523). -/
def cacheModesOf (filt : Str) : List Str :=
  if filt = "both".data then ["cached".data, "direct".data] else [filt]

/-- Events of `run_workload` for one cache mode (lines 1311-1472): fork
iostat, then one fio launch per assembled phase, job names numbered by
position, or a single launch for a legacy zero-phase workload. -/
def workloadModeEvents (odir wname : Str) (cfg : WorkloadConfig) (mode : Str) : List Event :=
  let tn := wname ++ "_".data ++ mode
  Event.spawnMonitor (odir ++ "/iostat/".data ++ tn ++ ".iostat".data) ::
    (if cfg.phases.isEmpty then [Event.launchFio tn]
     else (List.range cfg.phases.length).map (fun i => Event.launchFio (phaseJobName tn (i + 1))))

/-- Events of `run_workload` over the active cache modes. -/
def run_workload_events (odir wname : Str) (cfg : WorkloadConfig) (filt : Str) : List Event :=
  (cacheModesOf filt).flatMap (workloadModeEvents odir wname cfg)

/-- Fio launches of `run_client_process` (lines 1590-1651): one per
assembled phase, job names `<client>_<mode>_phase<position>`. -/
def run_client_events (tag : Str) (cfg : WorkloadConfig) (mode : Str) : List Event :=
  (List.range cfg.phases.length).map
    (fun i => Event.launchFio (phaseJobName (tag ++ "_".data ++ mode) (i + 1)))

/-- Events of one cache mode of `run_concurrent_clients`
(lines 1524-1585): fork iostat, fork client1 and client2 (whose fio
launches run in the children; listed here in a fixed linearization,
the two clients actually run concurrently). -/
def concurrentModeEvents (odir : Str) (w1 w2 : WorkloadConfig) (mode : Str) : List Event :=
  Event.spawnMonitor (odir ++ "/iostat/concurrent_".data ++ mode ++ ".iostat".data)
    :: Event.spawnClient "client1".data
    :: (run_client_events "client1".data w1 mode
        ++ Event.spawnClient "client2".data :: run_client_events "client2".data w2 mode)

/-- Events of `run_concurrent_clients` over the active cache modes. -/
def run_concurrent_clients_events (odir : Str) (w1 w2 : WorkloadConfig) (filt : Str) :
    List Event :=
  (cacheModesOf filt).flatMap (concurrentModeEvents odir w1 w2)

/-- The mode dispatch of `run` (lines 1884-1933) after its fatal
dependency/parse checks, returning the exit code and the process events.
The steps that precede the dual-client check (`check_dependencies`,
`parse_config_file`, `parse_cgroup_config`, `setup`, `setup_all_cgroups`)
spawn no monitor, client or fio process (their shell commands are the
cgroup commands modelled separately), so they contribute no events. -/
def runModel (wls : List (Str × WorkloadConfig)) (mode filt odir : Str) : Int × List Event :=
  if mode = "dual".data then
    match assocFind wls "client1_steady".data, assocFind wls "client2_bursty".data with
    | some w1, some w2 => (0, run_concurrent_clients_events odir w1 w2 filt)
    | _, _ => (1, [])
  else if mode = "all".data then
    (0, wls.flatMap (fun nw => run_workload_events odir nw.1 nw.2 filt))
  else
    match assocFind wls mode with
    | none => (1, [])
    | some cfg => (0, run_workload_events odir mode cfg filt)

/-- Concrete artifact state for the C1 scenario: phase1 empty, phase2
non-empty (content `[55]`), phase3 missing. -/
def c1Fs : Str → Option (List Nat) := fun p =>
  if p = phaseArtifactPath "out".data "w_cached".data 1 then some []
  else if p = phaseArtifactPath "out".data "w_cached".data 2 then some [55]
  else none

/-- A multi-phase workload whose defaults are all set, including a
workload-level ioengine. -/
def c3Workload : WorkloadConfig :=
  { description := [], file_size := "1G".data, numjobs := 4, rate_iops := 0,
    block_size := "4k".data, runtime := 30, iodepth := 1, pattern := "read".data,
    ioengine := "psync".data, phases := [] }

/-- A phase omitting every overridable parameter. -/
def c3Phase : PhaseConfig :=
  { runtime := 10, block_size := "4k".data, iodepth := 1, pattern := "read".data,
    ioengine := [], numjobs := 0, file_size := [], rate_iops := 0 }

/-- A workload declaring only phases 2 and 5. -/
def c10Cfg : List Str :=
  ["[w]".data, "phase_2_runtime=10".data, "phase_2_block_size=4k".data,
   "phase_5_runtime=20".data, "phase_5_block_size=1m".data]

/-- Artifact state for the C10 witness: only the position-1 artifact
exists. -/
def c10Fs : Str → Option (List Nat) := fun p =>
  if p = phaseArtifactPath "out".data "w_cached".data 1 then some [7] else none

/-! ## Theorems -/

/-- `take` yields a prefix (wrapper keeping call sites uniform). -/
theorem take_pre (n : Nat) (l : Str) : l.take n <+: l := List.take_prefix n l

/-- The first character surviving `dropWhile p` does not satisfy `p`. -/
theorem head?_dropWhile_not {p : Char → Bool} :
    ∀ {l : Str} {c : Char}, (l.dropWhile p).head? = some c → p c = false := by
  intro l
  induction l with
  | nil => intro c h; simp at h
  | cons a t ih =>
    intro c h
    rw [List.dropWhile_cons] at h
    by_cases hpa : p a
    · rw [if_pos hpa] at h; exact ih h
    · rw [if_neg hpa] at h
      simp only [List.head?_cons, Option.some.injEq] at h
      subst h
      exact Bool.eq_false_iff.mpr hpa

/-- `head?` is preserved along a list prefix. -/
theorem head?_of_pre {l₁ l₂ : Str} {c : Char} (h : l₁ <+: l₂)
    (hc : l₁.head? = some c) : l₂.head? = some c := by
  rcases h with ⟨t, rfl⟩
  rw [List.head?_append, hc]
  rfl

/-- `getLast?` is preserved along a list suffix. -/
theorem getLast?_of_suffix {l₁ l₂ : Str} {c : Char} (h : l₁ <:+ l₂)
    (hc : l₁.getLast? = some c) : l₂.getLast? = some c := by
  rcases h with ⟨t, rfl⟩
  rw [List.getLast?_append, hc]
  rfl

/-- `trimRight` returns a prefix of its input. -/
theorem trimRight_pre (p : Char → Bool) (l : Str) : trimRight p l <+: l := by
  rcases @List.dropWhile_suffix Char l.reverse p with ⟨t, ht⟩
  refine ⟨t.reverse, ?_⟩
  have := congrArg List.reverse ht
  simpa [trimRight, List.reverse_append] using this

/-- The last character surviving `trimRight p` does not satisfy `p`. -/
theorem getLast?_trimRight {p : Char → Bool} {l : Str} {c : Char}
    (h : (trimRight p l).getLast? = some c) : p c = false := by
  unfold trimRight at h
  rw [List.getLast?_reverse] at h
  exact head?_dropWhile_not h

/-- `trimRight` keeps the head of a nonempty result. -/
theorem head?_trimRight {p : Char → Bool} {l : Str} {c : Char}
    (h : (trimRight p l).head? = some c) : l.head? = some c :=
  head?_of_pre (trimRight_pre p l) h

/-- `dropWhile` keeps the last element of a nonempty result. -/
theorem getLast?_dropWhile {p : Char → Bool} {l : Str} {c : Char}
    (h : (l.dropWhile p).getLast? = some c) : l.getLast? = some c :=
  getLast?_of_suffix (List.dropWhile_suffix p) h

/-- The result of a both-ends trim has no space/tab at either edge. -/
theorem isTrimmedST_trimBy (s : Str) : isTrimmedST (trimBy isSpaceTab s) = true := by
  unfold isTrimmedST trimBy
  rw [Bool.and_eq_true]
  constructor
  · rcases hh : (trimRight isSpaceTab (trimLeft isSpaceTab s)).head? with _ | c
    · rfl
    · have h1 : (trimLeft isSpaceTab s).head? = some c := head?_trimRight hh
      have h2 : isSpaceTab c = false := head?_dropWhile_not h1
      simp [edgeOk, h2]
  · rcases hh : (trimRight isSpaceTab (trimLeft isSpaceTab s)).getLast? with _ | c
    · rfl
    · have h2 : isSpaceTab c = false := getLast?_trimRight hh
      simp [edgeOk, h2]

/-- A character outside the space/tab/CR/LF class is outside the
space/tab class. -/
theorem wsr_false_spaceTab_false {c : Char} (h : isTrimWSRight c = false) :
    isSpaceTab c = false := by
  simp only [isTrimWSRight, Bool.or_eq_false_iff] at h
  simp [isSpaceTab, h.1.1.1, h.1.1.2]

/-- When `find` reports `npos`, the character does not occur. -/
theorem idxOf?_none_not_mem {c : Char} : ∀ {l : Str}, idxOf? c l = none → c ∉ l := by
  intro l
  induction l with
  | nil => intro _ h; exact absurd h (List.not_mem_nil c)
  | cons a t ih =>
    intro h hmem
    unfold idxOf? at h
    by_cases hac : a = c
    · rw [if_pos hac] at h; exact Option.noConfusion h
    · rw [if_neg hac] at h
      have ht : idxOf? c t = none := by
        rcases h' : idxOf? c t with _ | v
        · rfl
        · rw [h'] at h; simp at h
      rcases List.mem_cons.mp hmem with rfl | hmem'
      · exact hac rfl
      · exact ih ht hmem'

/-- The character does not occur before its first reported index. -/
theorem idxOf?_not_mem_take {c : Char} :
    ∀ {l : Str} {j : Nat}, idxOf? c l = some j → c ∉ l.take j := by
  intro l
  induction l with
  | nil => intro j h; simp [idxOf?] at h
  | cons a t ih =>
    intro j h
    unfold idxOf? at h
    by_cases hac : a = c
    · rw [if_pos hac] at h
      simp only [Option.some.injEq] at h
      subst h
      simp
    · rw [if_neg hac] at h
      rcases h' : idxOf? c t with _ | j'
      · rw [h'] at h; simp at h
      · rw [h'] at h
        simp only [Option.map_some', Option.some.injEq] at h
        subst h
        rw [List.take_succ_cons]
        intro hmem
        rcases List.mem_cons.mp hmem with rfl | hmem'
        · exact hac rfl
        · exact ih h' hmem'

/-- C5 counterexample: in the workload configuration parser the trailing
inline comment is NOT stripped from the stored value — the line
`file_size = 1G # big` stores the value `1G # big`, comment marker
included, both at the key/value split and in the parsed workload; the
claim's "the trailing inline comment is stripped" fails here. -/
theorem workload_value_keeps_inline_comment :
    workloadKV c5Line = some ("file_size".data, "1G # big".data) ∧
    '#' ∈ ("1G # big".data) ∧
    (parse_config_file ["[w]".data, c5Line]).map
        (fun o => o.workloads.map (fun nw => nw.2.file_size))
      = some ["1G # big".data] := by
  refine ⟨by decide, by decide, by decide⟩

/-- C5 (amended): both parsers trim keys and values of surrounding
spaces/tabs, but inline `#` comments are stripped only by the
resource-group (cgroup) configuration parser; the workload configuration
parser keeps them in the stored value. -/
theorem kv_trimming_and_comment_stripping :
    (∀ line k v, workloadKV line = some (k, v) →
       isTrimmedST k = true ∧ isTrimmedST v = true) ∧
    (∀ line k v, cgroupKV line = some (k, v) →
       isTrimmedST k = true ∧ isTrimmedST v = true ∧ '#' ∉ v) := by
  constructor
  · intro line k v h
    unfold workloadKV at h
    rcases hidx : idxOf? '=' line with _ | i
    · rw [hidx] at h; exact Option.noConfusion h
    · rw [hidx] at h
      simp only [Option.some.injEq, Prod.mk.injEq] at h
      rcases h with ⟨hk, hv⟩
      subst hk; subst hv
      exact ⟨isTrimmedST_trimBy _, isTrimmedST_trimBy _⟩
  · intro raw k v h
    unfold cgroupKV at h
    set line := cgroupTrimLine raw with hline
    by_cases h1 : line.isEmpty
    · rw [if_pos h1] at h; exact Option.noConfusion h
    rw [if_neg h1] at h
    by_cases h2 : line.head? = some '#'
    · rw [if_pos h2] at h; exact Option.noConfusion h
    rw [if_neg h2] at h
    by_cases h3 : line.head? = some '['
    · rw [if_pos h3] at h; exact Option.noConfusion h
    rw [if_neg h3] at h
    unfold cgroupKVCore at h
    rcases hidx : idxOf? '=' line with _ | i
    · rw [hidx] at h; exact Option.noConfusion h
    rw [hidx] at h
    simp only [Option.some.injEq, Prod.mk.injEq] at h
    rcases h with ⟨hk, hv⟩
    have keyTrimmed : isTrimmedST k = true := by
      subst hk
      unfold isTrimmedST
      rw [Bool.and_eq_true]
      constructor
      · rcases hh : (trimRight isSpaceTab (line.take i)).head? with _ | c
        · rfl
        · have hc1 : (line.take i).head? = some c := head?_trimRight hh
          have hc2 : line.head? = some c := head?_of_pre (take_pre i line) hc1
          have hc3 : (trimLeft isSpaceTab raw).head? = some c := by
            unfold cgroupTrimLine at hline
            rw [hline] at hc2
            exact head?_trimRight hc2
          have : isSpaceTab c = false := head?_dropWhile_not hc3
          simp [edgeOk, this]
      · rcases hh : (trimRight isSpaceTab (line.take i)).getLast? with _ | c
        · rfl
        · have : isSpaceTab c = false := getLast?_trimRight hh
          simp [edgeOk, this]
    refine ⟨keyTrimmed, ?_, ?_⟩
    · subst hv
      rcases hsharp : idxOf? '#' (trimLeft isSpaceTab (line.drop (i + 1))) with _ | j
      · simp only [hsharp]
        unfold isTrimmedST
        rw [Bool.and_eq_true]
        constructor
        · rcases hh : (trimLeft isSpaceTab (line.drop (i + 1))).head? with _ | c
          · rfl
          · have : isSpaceTab c = false := head?_dropWhile_not hh
            simp [edgeOk, this]
        · rcases hh : (trimLeft isSpaceTab (line.drop (i + 1))).getLast? with _ | c
          · rfl
          · have hc1 : (line.drop (i + 1)).getLast? = some c := getLast?_dropWhile hh
            have hc2 : line.getLast? = some c :=
              getLast?_of_suffix (List.drop_suffix (i + 1) line) hc1
            have hc3 : isTrimWSRight c = false := by
              unfold cgroupTrimLine at hline
              rw [hline] at hc2
              exact getLast?_trimRight hc2
            have : isSpaceTab c = false := wsr_false_spaceTab_false hc3
            simp [edgeOk, this]
      · simp only [hsharp]
        unfold isTrimmedST
        rw [Bool.and_eq_true]
        constructor
        · rcases hh : (trimRight isSpaceTab
              ((trimLeft isSpaceTab (line.drop (i + 1))).take j)).head? with _ | c
          · rfl
          · have hc1 := head?_trimRight hh
            have hc2 := head?_of_pre (take_pre j _) hc1
            have : isSpaceTab c = false := head?_dropWhile_not hc2
            simp [edgeOk, this]
        · rcases hh : (trimRight isSpaceTab
              ((trimLeft isSpaceTab (line.drop (i + 1))).take j)).getLast? with _ | c
          · rfl
          · have : isSpaceTab c = false := getLast?_trimRight hh
            simp [edgeOk, this]
    · subst hv
      rcases hsharp : idxOf? '#' (trimLeft isSpaceTab (line.drop (i + 1))) with _ | j
      · simp only [hsharp]
        exact idxOf?_none_not_mem hsharp
      · simp only [hsharp]
        intro hmem
        have hsub : trimRight isSpaceTab
            ((trimLeft isSpaceTab (line.drop (i + 1))).take j)
            ⊆ (trimLeft isSpaceTab (line.drop (i + 1))).take j :=
          (trimRight_pre _ _).subset
        exact idxOf?_not_mem_take hsharp (hsub hmem)

/-- Witness for the amended C5 theorem at concrete lines of both
grammars. -/
theorem kv_trimming_and_comment_stripping_witness :
    (isTrimmedST "file_size".data = true ∧ isTrimmedST "1G # big".data = true) ∧
    (isTrimmedST "memory.max".data = true ∧ isTrimmedST "1G".data = true ∧
     '#' ∉ ("1G".data)) :=
  ⟨kv_trimming_and_comment_stripping.1 " file_size = 1G # big ".data
      "file_size".data "1G # big".data (by decide),
   kv_trimming_and_comment_stripping.2 " memory.max = 1G # limit ".data
      "memory.max".data "1G".data (by decide)⟩

/-- C6 counterexample: a workload whose declared phase numbers are 1 and 3
parses successfully (both phases assembled), but the warning list is
empty — the parse loop contains no gap check and no warning-emitting call,
so the gap is NOT surfaced as a warning as the claim states. -/
theorem gap_not_surfaced_as_warning :
    (parse_config_file c6GapCfg).map ParseOutput.ok = some true ∧
    (parse_config_file c6GapCfg).map ParseOutput.warnings = some [] ∧
    (parse_config_file c6GapCfg).map
        (fun o => o.workloads.map (fun nw => nw.2.phases.length)) = some [2] := by
  refine ⟨by decide, by decide, by decide⟩

/-- No iteration of the parse loop appends a warning. -/
theorem lineStep_warnings {st st' : ParseState} {l : Str}
    (h : lineStep st l = some st') : st'.warnings = st.warnings := by
  unfold lineStep at h
  by_cases h1 : skipLine l
  · rw [if_pos h1] at h
    cases h
    rfl
  · rw [if_neg h1] at h
    by_cases h2 : headerLine l
    · rw [if_pos h2] at h
      cases h
      rfl
    · rw [if_neg h2] at h
      rcases hkv : kvStep st.current_workload st.phase_map l with _ | cwpm
      · rw [hkv] at h; exact Option.noConfusion h
      · rw [hkv] at h
        cases h
        rfl

/-- The parse loop leaves the warning list untouched. -/
theorem parseLinesFrom_warnings :
    ∀ {ls : List Str} {st st' : ParseState},
      parseLinesFrom st ls = some st' → st'.warnings = st.warnings := by
  intro ls
  induction ls with
  | nil => intro st st' h; cases h; rfl
  | cons l rest ih =>
    intro st st' h
    unfold parseLinesFrom at h
    rcases hstep : lineStep st l with _ | st1
    · rw [hstep] at h; exact Option.noConfusion h
    · rw [hstep] at h
      rw [ih h, lineStep_warnings hstep]

/-- C6 (amended): a gapped phase numbering parses successfully, and no
warning is ever emitted by `parse_config_file` — the gap is silently
accepted rather than surfaced. -/
theorem gapped_phases_parse_without_warning :
    (∀ lines out, parse_config_file lines = some out → out.warnings = []) ∧
    (parse_config_file c6GapCfg).map (fun o => (o.ok, o.warnings))
      = some (true, ([] : List Str)) := by
  constructor
  · intro lines out h
    unfold parse_config_file at h
    rcases hp : parseLinesFrom initState lines with _ | st
    · rw [hp] at h; exact Option.noConfusion h
    · rw [hp] at h
      simp only [Option.map_some', Option.some.injEq] at h
      subst h
      exact parseLinesFrom_warnings hp
  · decide

/-- Witness for the amended C6 theorem at the gapped configuration. -/
theorem gapped_phases_parse_without_warning_witness :
    (parse_config_file c6GapCfg).map ParseOutput.warnings = some [] := by
  rcases hh : parse_config_file c6GapCfg with _ | out
  · exact absurd hh (by decide)
  · simp only [Option.map_some']
    exact congrArg some (gapped_phases_parse_without_warning.1 c6GapCfg out hh)

/-- The keys after a phase-map upsert are the inserted key plus the old
keys. -/
theorem pmSet_keys_mem (n : Int) (v : PhaseConfig) :
    ∀ (pm : PhaseMap) (b : Int),
      b ∈ (pmSet pm n v).map Prod.fst ↔ b = n ∨ b ∈ pm.map Prod.fst := by
  intro pm
  induction pm with
  | nil => intro b; simp [pmSet]
  | cons kv rest ih =>
    intro b
    obtain ⟨k, w⟩ := kv
    unfold pmSet
    by_cases h1 : n < k
    · rw [if_pos h1]; simp
    · rw [if_neg h1]
      by_cases h2 : n = k
      · rw [if_pos h2]; subst h2; simp
      · rw [if_neg h2]
        simp only [List.map_cons, List.mem_cons]
        rw [ih b]
        tauto

/-- A phase-map upsert preserves strict ascending key order. -/
theorem pmSet_pairwise (n : Int) (v : PhaseConfig) :
    ∀ {pm : PhaseMap}, List.Pairwise (· < ·) (pm.map Prod.fst) →
      List.Pairwise (· < ·) ((pmSet pm n v).map Prod.fst) := by
  intro pm
  induction pm with
  | nil => intro _; simp [pmSet]
  | cons kv rest ih =>
    intro hpw
    obtain ⟨k, w⟩ := kv
    rw [List.map_cons, List.pairwise_cons] at hpw
    obtain ⟨hk, hrest⟩ := hpw
    unfold pmSet
    by_cases h1 : n < k
    · rw [if_pos h1]
      simp only [List.map_cons, List.pairwise_cons]
      refine ⟨?_, hk, hrest⟩
      intro b hb
      rcases List.mem_cons.mp hb with rfl | hb'
      · exact h1
      · exact lt_trans h1 (hk b hb')
    · rw [if_neg h1]
      by_cases h2 : n = k
      · rw [if_pos h2]
        subst h2
        simp only [List.map_cons, List.pairwise_cons]
        exact ⟨hk, hrest⟩
      · rw [if_neg h2]
        simp only [List.map_cons, List.pairwise_cons]
        refine ⟨?_, ih hrest⟩
        intro b hb
        rcases (pmSet_keys_mem n v rest b).mp hb with rfl | hb'
        · exact lt_of_le_of_ne (not_lt.mp h1) (fun he => h2 he.symm)
        · exact hk b hb'

/-- A key-value step either performs exactly one phase-map upsert at the
line's declared phase number, or leaves the phase map unchanged. -/
theorem kvStep_pm {cw : WorkloadConfig} {pm : PhaseMap} {l : Str}
    {cw' : WorkloadConfig} {pm' : PhaseMap}
    (h : kvStep cw pm l = some (cw', pm')) :
    (∃ n p, phaseNumOf l = some n ∧ pm' = pmSet pm n p) ∨
    (phaseNumOf l = none ∧ pm' = pm) := by
  rcases hkv : workloadKV l with _ | ⟨key, value⟩
  · simp only [kvStep, hkv, Option.some.injEq, Prod.mk.injEq] at h
    simp only [phaseNumOf, hkv]
    refine Or.inr ⟨?_, h.2.symm⟩
    trivial
  simp only [kvStep, hkv] at h
  simp only [phaseNumOf, hkv]
  by_cases hph : key.take 6 = "phase_".data
  · simp only [if_pos hph] at h ⊢
    rcases hu : idxOfFrom? '_' key 6 with _ | u
    · simp only [hu, Option.some.injEq, Prod.mk.injEq] at h ⊢
      refine Or.inr ⟨?_, h.2.symm⟩
      trivial
    simp only [hu] at h ⊢
    rcases hn : stoi? ((key.drop 6).take (u - 6)) with _ | n
    · simp only [hn] at h
      exact Option.noConfusion h
    simp only [hn] at h ⊢
    rcases happ : applyPhaseParam (key.drop (u + 1)) value
        ((pmLookup pm n).getD PhaseConfig.default0) with _ | p'
    · simp only [happ] at h
      exact Option.noConfusion h
    simp only [happ, Option.some.injEq, Prod.mk.injEq] at h
    refine Or.inl ⟨n, p', ?_, h.2.symm⟩
    trivial
  · simp only [if_neg hph] at h ⊢
    refine Or.inr ⟨?_, ?_⟩
    · trivial
    split_ifs at h
    all_goals
      first
      | (simp only [Option.some.injEq, Prod.mk.injEq] at h; exact h.2.symm)
      | (rcases hsv : stoi? value with _ | v
         · simp only [hsv, Option.map_none'] at h
           exact Option.noConfusion h
         · simp only [hsv, Option.map_some', Option.some.injEq, Prod.mk.injEq] at h
           exact h.2.symm)

/-- A skipped line (blank, `#`, or `;`) declares no phase number. -/
theorem skipLine_phaseNumOf {l : Str} (h : skipLine l = true) : phaseNumOf l = none := by
  rcases l with _ | ⟨c, t⟩
  · rfl
  unfold skipLine at h
  rcases hkv : workloadKV (c :: t) with _ | ⟨key, value⟩
  · simp [phaseNumOf, hkv]
  simp only [phaseNumOf, hkv]
  by_cases hph : key.take 6 = "phase_".data
  · exfalso
    have hkh : key.head? = some 'p' := by
      rcases key with _ | ⟨k0, krest⟩
      · exact absurd hph (by decide)
      · rw [List.take_succ_cons] at hph
        injection hph with h1 _
        simp [h1]
    unfold workloadKV at hkv
    rcases hidx : idxOf? '=' (c :: t) with _ | i
    · rw [hidx] at hkv; exact Option.noConfusion hkv
    rw [hidx] at hkv
    simp only [Option.some.injEq, Prod.mk.injEq] at hkv
    rcases hkv with ⟨hkey, _⟩
    rw [← hkey] at hkh
    have h1 := head?_trimRight hkh
    simp only [Bool.or_eq_true, beq_iff_eq] at h
    rcases h with rfl | rfl
    all_goals
      rcases i with _ | i'
      · simp [trimLeft] at h1
      · rw [List.take_succ_cons, trimLeft, List.dropWhile_cons] at h1
        rw [if_neg (by decide)] at h1
        simp at h1
  · rw [if_neg hph]

/-- `parseLinesFrom` on header-free lines is the section fold on the
`(current_workload, phase_map)` accumulator. -/
theorem parseLinesFrom_section :
    ∀ {ls : List Str} {st : ParseState}, (∀ l ∈ ls, headerTaken l = false) →
      parseLinesFrom st ls =
        (foldSection (st.current_workload, st.phase_map) ls).map
          (fun acc =>
            { st with current_workload := acc.1, phase_map := acc.2 }) := by
  intro ls
  induction ls with
  | nil => intro st _; rfl
  | cons l rest ih =>
    intro st hh
    have hl := hh l (by simp)
    have hrest : ∀ x ∈ rest, headerTaken x = false := fun x hx => hh x (by simp [hx])
    simp only [parseLinesFrom, foldSection]
    by_cases hsk : skipLine l
    · have hstep : lineStep st l = some st := by
        unfold lineStep
        rw [if_pos hsk]
      rw [hstep, if_pos hsk]
      exact ih hrest
    · have hskf : skipLine l = false := Bool.eq_false_iff.mpr hsk
      have hhl : headerLine l = false := by
        simpa [headerTaken, hskf] using hl
      rw [if_neg hsk]
      have hstep : lineStep st l =
          (kvStep st.current_workload st.phase_map l).map
            (fun cwpm => { st with current_workload := cwpm.1, phase_map := cwpm.2 }) := by
        unfold lineStep
        rw [if_neg hsk, if_neg (by simp [hhl])]
      rw [hstep]
      rcases hkv : kvStep st.current_workload st.phase_map l with _ | acc'
      · rfl
      · simp only [Option.map_some']
        exact ih hrest

/-- Over a section body, the phase-map keys stay strictly sorted and are
exactly the phase numbers the lines declare (plus those already
present). -/
theorem foldSection_pm :
    ∀ {ls : List Str} {cw : WorkloadConfig} {pm : PhaseMap}
      {cw' : WorkloadConfig} {pm' : PhaseMap},
      foldSection (cw, pm) ls = some (cw', pm') →
      (List.Pairwise (· < ·) (pm.map Prod.fst) →
        List.Pairwise (· < ·) (pm'.map Prod.fst)) ∧
      (∀ b : Int, b ∈ pm'.map Prod.fst ↔
        b ∈ ls.filterMap phaseNumOf ∨ b ∈ pm.map Prod.fst) := by
  intro ls
  induction ls with
  | nil =>
    intro cw pm cw' pm' h
    unfold foldSection at h
    simp only [Option.some.injEq, Prod.mk.injEq] at h
    rw [← h.2]
    exact ⟨id, by simp⟩
  | cons l rest ih =>
    intro cw pm cw' pm' h
    unfold foldSection at h
    by_cases hsk : skipLine l
    · rw [if_pos hsk] at h
      have hnum := skipLine_phaseNumOf hsk
      obtain ⟨ihp, ihm⟩ := ih h
      refine ⟨ihp, ?_⟩
      intro b
      rw [ihm b, List.filterMap_cons, hnum]
    · rw [if_neg hsk] at h
      rcases hkv : kvStep cw pm l with _ | acc'
      · rw [hkv] at h; exact Option.noConfusion h
      rw [hkv] at h
      obtain ⟨cw1, pm1⟩ := acc'
      obtain ⟨ihp, ihm⟩ := ih h
      rcases kvStep_pm hkv with ⟨n, p, hnum, hpm1⟩ | ⟨hnum, hpm1⟩
      · subst hpm1
        constructor
        · intro hpw
          exact ihp (pmSet_pairwise n p hpw)
        · intro b
          rw [ihm b, List.filterMap_cons, hnum, pmSet_keys_mem]
          simp only [List.mem_cons]
          tauto
      · subst hpm1
        refine ⟨ihp, ?_⟩
        intro b
        rw [ihm b, List.filterMap_cons, hnum]

/-- C2: for a workload section, whatever the source order of its
`phase_<N>_<param>` keys, the assembled phases are the phase-map values in
strictly ascending phase-number order, and the keys of that map are
exactly the declared phase numbers. -/
theorem parse_phases_sorted_ascending (name : Str) (ls : List Str) (out : ParseOutput)
    (hname : name ≠ [])
    (hhdr : ∀ l ∈ ls, headerTaken l = false)
    (hp : parse_config_file (sectionHeaderOf name :: ls) = some out) :
    ∃ cwpm : WorkloadConfig × PhaseMap,
      foldSection (WorkloadConfig.default0, []) ls = some cwpm ∧
      out.workloads = [(name,
        { cwpm.1 with phases := cwpm.1.phases ++ cwpm.2.map Prod.snd })] ∧
      List.Sorted (· < ·) (cwpm.2.map Prod.fst) ∧
      (∀ b : Int, b ∈ cwpm.2.map Prod.fst ↔ b ∈ ls.filterMap phaseNumOf) := by
  have hskip : skipLine (sectionHeaderOf name) = false := rfl
  have hgl : (sectionHeaderOf name).getLast? = some ']' := by
    unfold sectionHeaderOf
    rw [show ('[' :: (name ++ [']'])) = ('[' :: name) ++ [']'] by simp]
    exact List.getLast?_concat _
  have hhl : headerLine (sectionHeaderOf name) = true := by
    unfold headerLine sectionHeaderOf
    unfold sectionHeaderOf at hgl
    simp [hgl]
  have hsec : ((sectionHeaderOf name).drop 1).take ((sectionHeaderOf name).length - 2)
      = name := by
    have harith : (sectionHeaderOf name).length - 2 = name.length := by
      simp only [sectionHeaderOf, List.length_cons, List.length_append, List.length_nil]
      omega
    show (name ++ [']']).take ((sectionHeaderOf name).length - 2) = name
    rw [harith]
    exact List.take_left name [']']
  have hstep : lineStep initState (sectionHeaderOf name) =
      some ⟨[], name, WorkloadConfig.default0, [], []⟩ := by
    unfold lineStep
    rw [if_neg (by simp [hskip]), if_pos hhl, hsec]
    rfl
  unfold parse_config_file at hp
  simp only [parseLinesFrom] at hp
  simp only [hstep] at hp
  rw [parseLinesFrom_section hhdr] at hp
  rcases hfold : foldSection (WorkloadConfig.default0, []) ls with _ | cwpm
  · rw [hfold] at hp; exact Option.noConfusion hp
  rw [hfold] at hp
  simp only [Option.map_some', Option.some.injEq] at hp
  refine ⟨cwpm, rfl, ?_, ?_, ?_⟩
  · rw [← hp]
    unfold closeSection
    rw [if_neg (by simp [hname])]
    rfl
  · obtain ⟨hpw, _⟩ :=
      @foldSection_pm ls WorkloadConfig.default0 [] cwpm.1 cwpm.2 (by rw [hfold])
    exact hpw List.Pairwise.nil
  · obtain ⟨_, hm⟩ :=
      @foldSection_pm ls WorkloadConfig.default0 [] cwpm.1 cwpm.2 (by rw [hfold])
    intro b
    rw [hm b]
    simp

/-- Witness for C2: phases declared in the order 2, 2, 1, 1 assemble into
a phase map with strictly ascending keys 1 < 2. -/
theorem parse_phases_sorted_ascending_witness :
    ∃ cwpm : WorkloadConfig × PhaseMap,
      foldSection (WorkloadConfig.default0, []) c2Lines = some cwpm ∧
      List.Sorted (· < ·) (cwpm.2.map Prod.fst) ∧
      (∀ b : Int, b ∈ cwpm.2.map Prod.fst ↔ b ∈ c2Lines.filterMap phaseNumOf) := by
  rcases hh : parse_config_file (sectionHeaderOf "w".data :: c2Lines) with _ | out
  · exact absurd hh (by decide)
  · obtain ⟨cwpm, h1, _, h3, h4⟩ :=
      parse_phases_sorted_ascending "w".data c2Lines out (by decide) (by decide) hh
    exact ⟨cwpm, h1, h3, h4⟩

/-- C9: when the resource-group configuration source is absent,
`parse_cgroup_config` still reports success while switching
`use_cgroups` off, and afterwards every resource-group operation —
per-client setup, process attachment, teardown and the setup-all driver —
issues no command and (where it returns a status) succeeds. -/
theorem absent_cgroup_config_disables_isolation (lines : List Str) (st : CgState)
    (h : Host) (client : Str) (pid : Int) :
    (parse_cgroup_config false lines st).1 = true ∧
    (parse_cgroup_config false lines st).2.use_cgroups = false ∧
    setup_cgroup h (parse_cgroup_config false lines st).2 client = (true, []) ∧
    add_pid_to_cgroup h (parse_cgroup_config false lines st).2 client pid = (true, []) ∧
    cleanup_cgroups h (parse_cgroup_config false lines st).2 = [] ∧
    setup_all_cgroups h (parse_cgroup_config false lines st).2 = [] := by
  have hp : parse_cgroup_config false lines st = (true, { st with use_cgroups := false }) := rfl
  rw [hp]
  refine ⟨rfl, rfl, ?_, ?_, ?_, ?_⟩ <;> rfl

/-- Scanning descending from `N`, the scan returns the artifact at the
largest qualifying position. -/
theorem mergeScan_picks_first_descending
    (fsO : Str → Option (List Nat)) (odir tn : Str) :
    ∀ (N i : Nat) (c : List Nat), 1 ≤ i → i ≤ N →
      fsO (phaseArtifactPath odir tn i) = some c → c ≠ [] →
      (∀ j, i < j → j ≤ N → ¬ qualifies fsO odir tn j) →
      mergeScan fsO odir tn N = some (phaseArtifactPath odir tn i, c) := by
  intro N
  induction N with
  | zero => intro i c h1 h2 _ _ _; omega
  | succ n ih =>
    intro i c h1 h2 hc hne hnone
    by_cases hi : i = n + 1
    · subst hi
      simp only [mergeScan, hc]
      rw [if_pos (List.length_pos.mpr hne)]
    · have hile : i ≤ n := by omega
      have hnq : ¬ qualifies fsO odir tn (n + 1) := hnone (n + 1) (by omega) (le_refl _)
      have hrec := ih i c h1 hile hc hne (fun j hj1 hj2 => hnone j hj1 (by omega))
      rcases hN : fsO (phaseArtifactPath odir tn (n + 1)) with _ | c'
      · simp only [mergeScan, hN]
        exact hrec
      · have hc' : c' = [] := by
          by_contra hx
          exact hnq ⟨c', hN, hx⟩
        subst hc'
        simp only [mergeScan, hN]
        rw [if_neg (by simp)]
        exact hrec

/-- When no artifact qualifies, the scan comes back empty. -/
theorem mergeScan_none_of_no_qualifying
    (fsO : Str → Option (List Nat)) (odir tn : Str) :
    ∀ N, (∀ j, 1 ≤ j → j ≤ N → ¬ qualifies fsO odir tn j) →
      mergeScan fsO odir tn N = none := by
  intro N
  induction N with
  | zero => intro _; rfl
  | succ n ih =>
    intro h
    have hnq := h (n + 1) (by omega) (le_refl _)
    have hrec := ih (fun j h1 h2 => h j h1 (by omega))
    rcases hN : fsO (phaseArtifactPath odir tn (n + 1)) with _ | c'
    · simp only [mergeScan, hN]
      exact hrec
    · have hc' : c' = [] := by
        by_contra hx
        exact hnq ⟨c', hN, hx⟩
      subst hc'
      simp only [mergeScan, hN]
      rw [if_neg (by simp)]
      exact hrec

/-- C1: reconciliation scans phase artifacts in descending positional
order and copies exactly the first existing, non-empty one to the
canonical output; on the concrete state {phase1 empty, phase2 non-empty,
phase3 missing} it selects phase2's content; when nothing qualifies, the
canonical copy is absent, a warning is recorded, and `run_workload` still
returns success — the run does not fail. -/
theorem reconcile_descending_first_nonempty :
    (∀ (fsO : Str → Option (List Nat)) (odir tn : Str) (N i : Nat) (c : List Nat),
       1 ≤ i → i ≤ N → fsO (phaseArtifactPath odir tn i) = some c → c ≠ [] →
       (∀ j, i < j → j ≤ N → ¬ qualifies fsO odir tn j) →
       mergeScan fsO odir tn N = some (phaseArtifactPath odir tn i, c) ∧
       (mergeOutcome fsO odir tn N).canonical = some (phaseArtifactPath odir tn i, c) ∧
       (mergeOutcome fsO odir tn N).warnings = []) ∧
    (∀ (fsO : Str → Option (List Nat)) (odir tn : Str) (N : Nat),
       (∀ j, 1 ≤ j → j ≤ N → ¬ qualifies fsO odir tn j) →
       (mergeOutcome fsO odir tn N).canonical = none ∧
       (0 < N → (mergeOutcome fsO odir tn N).warnings ≠ [])) ∧
    (mergeScan c1Fs "out".data "w_cached".data 3
       = some (phaseArtifactPath "out".data "w_cached".data 2, [55])) ∧
    (∀ (wls : List (Str × WorkloadConfig)) (nm : Str) (cfg : WorkloadConfig),
       assocFind wls nm = some cfg → run_workload_ok wls nm = true) := by
  refine ⟨?_, ?_, ?_, ?_⟩
  · intro fsO odir tn N i c h1 h2 hc hne hnone
    have hscan := mergeScan_picks_first_descending fsO odir tn N i c h1 h2 hc hne hnone
    have hpos : 0 < N := by omega
    refine ⟨hscan, ?_, ?_⟩
    · simp [mergeOutcome, hpos, hscan]
    · simp [mergeOutcome, hpos, hscan]
  · intro fsO odir tn N hnone
    have hscan := mergeScan_none_of_no_qualifying fsO odir tn N hnone
    constructor
    · by_cases hpos : 0 < N
      · simp [mergeOutcome, hpos, hscan]
      · simp [mergeOutcome, hpos]
    · intro hpos
      simp [mergeOutcome, hpos, hscan]
  · decide
  · intro wls nm cfg h
    unfold run_workload_ok
    rw [h]
    rfl

/-- Witness for C1: the descending-first-selection theorem applied at the
concrete {empty, non-empty, missing} artifact state. -/
theorem reconcile_descending_first_nonempty_witness :
    mergeScan c1Fs "out".data "w_cached".data 3
      = some (phaseArtifactPath "out".data "w_cached".data 2, [55]) ∧
    (mergeOutcome c1Fs "out".data "w_cached".data 3).warnings = [] := by
  have hj : ∀ j, 2 < j → j ≤ 3 → ¬ qualifies c1Fs "out".data "w_cached".data j := by
    intro j hj1 hj2
    have hj3 : j = 3 := by omega
    subst hj3
    rintro ⟨c, hc, hne⟩
    have h3 : c1Fs (phaseArtifactPath "out".data "w_cached".data 3) = none := by decide
    rw [h3] at hc
    exact Option.noConfusion hc
  obtain ⟨ha, _, hb⟩ := reconcile_descending_first_nonempty.1 c1Fs "out".data "w_cached".data
    3 2 [55] (by omega) (by omega) (by decide) (by decide) hj
  exact ⟨ha, hb⟩

/-- C3 counterexample: a phase omitting its I/O backend does NOT take the
workload-level default — even though the workload sets
`ioengine = psync`, the phase invocation carries no ioengine flag at all
(lines 1369-1371 test only `phase.ioengine`), so the claim's
"takes the workload-level default as its effective value" fails for the
I/O backend. -/
theorem ioengine_default_not_inherited :
    (phaseFioWorkload "out".data "/w".data c3Workload c3Phase "w_cached".data 0
        "cached".data).ioengine = none ∧
    (phaseFioClient "out".data "/w".data c3Workload c3Phase "client1".data
        "cached".data 0).ioengine = none ∧
    c3Workload.ioengine = "psync".data ∧
    c3Workload.ioengine ≠ [] ∧
    (phaseFioWorkload "out".data "/w".data c3Workload c3Phase "w_cached".data 0
        "cached".data).ioengine ≠ some c3Workload.ioengine := by
  refine ⟨by decide, by decide, by decide, by decide, by decide⟩

/-- C3 (amended): in both phase launchers, numjobs, file size and rate
limit are computed override-then-fallback from the workload defaults, and
no zero-rate or empty-ioengine sentinel reaches the invocation (the flags
are omitted instead); the I/O backend, however, does not inherit the
workload default — an omitted phase ioengine yields an invocation without
the flag. -/
theorem phase_effective_values (odir sd : Str) (cfg : WorkloadConfig) (ph : PhaseConfig)
    (tn client mode : Str) (idx : Nat) (invW invC : FioInvocation)
    (hW : invW = phaseFioWorkload odir sd cfg ph tn idx mode)
    (hC : invC = phaseFioClient odir sd cfg ph client mode idx) :
    (ph.file_size = [] → invW.size = cfg.file_size ∧ invC.size = cfg.file_size ∧
       invW.filename = sd ++ "/test_file_".data ++ cfg.file_size) ∧
    (ph.file_size ≠ [] → invW.size = ph.file_size ∧ invC.size = ph.file_size) ∧
    (ph.numjobs ≤ 0 → invW.numjobs = cfg.numjobs ∧ invC.numjobs = cfg.numjobs) ∧
    (0 < ph.numjobs → invW.numjobs = ph.numjobs ∧ invC.numjobs = ph.numjobs) ∧
    (ph.rate_iops ≤ 0 → 0 < cfg.rate_iops →
       invW.rate_iops = some cfg.rate_iops ∧ invC.rate_iops = some cfg.rate_iops) ∧
    (ph.rate_iops ≤ 0 → cfg.rate_iops ≤ 0 →
       invW.rate_iops = none ∧ invC.rate_iops = none) ∧
    (0 < ph.rate_iops →
       invW.rate_iops = some ph.rate_iops ∧ invC.rate_iops = some ph.rate_iops) ∧
    (ph.ioengine = [] → invW.ioengine = none ∧ invC.ioengine = none) ∧
    (ph.ioengine ≠ [] →
       invW.ioengine = some ph.ioengine ∧ invC.ioengine = some ph.ioengine) ∧
    (∀ r, invW.rate_iops = some r → 0 < r) ∧
    (∀ e, invW.ioengine = some e → e ≠ []) ∧
    (cfg.file_size ≠ [] → invW.size ≠ []) ∧
    (0 < cfg.numjobs → ph.numjobs ≤ 0 → 0 < invW.numjobs) := by
  subst hW
  subst hC
  simp only [phaseFioWorkload, phaseFioClient]
  refine ⟨?_, ?_, ?_, ?_, ?_, ?_, ?_, ?_, ?_, ?_, ?_, ?_, ?_⟩
  · intro h
    simp [List.isEmpty_iff, h]
  · intro h
    simp [List.isEmpty_iff, h]
  · intro h
    rw [if_neg (show ¬ ph.numjobs > 0 by omega)]
    exact ⟨rfl, rfl⟩
  · intro h
    rw [if_pos (show ph.numjobs > 0 by omega)]
    exact ⟨rfl, rfl⟩
  · intro h1 h2
    rw [if_neg (show ¬ ph.rate_iops > 0 by omega),
        if_pos (show cfg.rate_iops > 0 by omega)]
    exact ⟨rfl, rfl⟩
  · intro h1 h2
    rw [if_neg (show ¬ ph.rate_iops > 0 by omega),
        if_neg (show ¬ cfg.rate_iops > 0 by omega)]
    exact ⟨rfl, rfl⟩
  · intro h
    rw [if_pos (show ph.rate_iops > 0 by omega),
        if_pos (show ph.rate_iops > 0 by omega)]
    exact ⟨rfl, rfl⟩
  · intro h
    simp [List.isEmpty_iff, h]
  · intro h
    simp [List.isEmpty_iff, h]
  · intro r hr
    by_cases hph : ph.rate_iops > 0
    · rw [if_pos hph, if_pos hph] at hr
      simp only [Option.some.injEq] at hr
      omega
    · rw [if_neg hph] at hr
      by_cases hcfg : cfg.rate_iops > 0
      · rw [if_pos hcfg] at hr
        simp only [Option.some.injEq] at hr
        omega
      · rw [if_neg hcfg] at hr
        exact Option.noConfusion hr
  · intro e he
    by_cases hio : ph.ioengine.isEmpty
    · rw [if_neg (by simp [hio])] at he
      exact Option.noConfusion he
    · rw [if_pos (by simp [hio])] at he
      simp only [Option.some.injEq] at he
      subst he
      exact fun hx => hio (by simp [hx])
  · intro h
    by_cases hfs : ph.file_size.isEmpty
    · rw [if_pos hfs]
      exact h
    · rw [if_neg hfs]
      exact fun hx => hfs (by simp [hx])
  · intro h1 h2
    rw [if_neg (show ¬ ph.numjobs > 0 by omega)]
    exact h1

/-- Witness for the amended C3 theorem: the all-omitting phase of
`c3Workload` inherits numjobs 4 and file size 1G, and passes no rate
flag. -/
theorem phase_effective_values_witness :
    ((phaseFioWorkload "out".data "/w".data c3Workload c3Phase "w_cached".data 0
        "cached".data).size = c3Workload.file_size ∧
     (phaseFioClient "out".data "/w".data c3Workload c3Phase "client1".data
        "cached".data 0).size = c3Workload.file_size ∧
     (phaseFioWorkload "out".data "/w".data c3Workload c3Phase "w_cached".data 0
        "cached".data).filename = "/w".data ++ "/test_file_".data ++ c3Workload.file_size) ∧
    ((phaseFioWorkload "out".data "/w".data c3Workload c3Phase "w_cached".data 0
        "cached".data).numjobs = c3Workload.numjobs ∧
     (phaseFioClient "out".data "/w".data c3Workload c3Phase "client1".data
        "cached".data 0).numjobs = c3Workload.numjobs) ∧
    ((phaseFioWorkload "out".data "/w".data c3Workload c3Phase "w_cached".data 0
        "cached".data).rate_iops = none ∧
     (phaseFioClient "out".data "/w".data c3Workload c3Phase "client1".data
        "cached".data 0).rate_iops = none) := by
  obtain ⟨h1, _, h3, _, _, h6, _, _, _, _⟩ :=
    phase_effective_values "out".data "/w".data c3Workload c3Phase "w_cached".data
      "client1".data "cached".data 0 _ _ rfl rfl
  exact ⟨h1 (by decide), h3 (by decide), h6 (by decide) (by decide)⟩

/-- C4: when dual-client mode is requested but at least one of
`client1_steady` / `client2_bursty` is absent from the parsed workloads,
the run exits with code 1 and the event trace is empty — no monitor
process, no client process and no load generator was spawned. -/
theorem dual_mode_missing_client_fatal (wls : List (Str × WorkloadConfig))
    (filt odir : Str)
    (h : assocFind wls "client1_steady".data = none ∨
         assocFind wls "client2_bursty".data = none) :
    (runModel wls "dual".data filt odir).1 = 1 ∧
    (runModel wls "dual".data filt odir).1 ≠ 0 ∧
    (runModel wls "dual".data filt odir).2 = [] := by
  have hd : runModel wls "dual".data filt odir = (1, []) := by
    unfold runModel
    rw [if_pos rfl]
    rcases h1 : assocFind wls "client1_steady".data with _ | w1
    · simp [h1]
    · rcases h2 : assocFind wls "client2_bursty".data with _ | w2
      · simp [h1, h2]
      · exfalso
        rcases h with h | h
        · rw [h1] at h; exact Option.noConfusion h
        · rw [h2] at h; exact Option.noConfusion h
  rw [hd]
  exact ⟨rfl, by decide, rfl⟩

/-- Witness for C4: a configuration with only `client1_steady`. -/
theorem dual_mode_missing_client_fatal_witness :
    (runModel [("client1_steady".data, WorkloadConfig.default0)]
        "dual".data "both".data "out".data).1 = 1 ∧
    (runModel [("client1_steady".data, WorkloadConfig.default0)]
        "dual".data "both".data "out".data).1 ≠ 0 ∧
    (runModel [("client1_steady".data, WorkloadConfig.default0)]
        "dual".data "both".data "out".data).2 = [] :=
  dual_mode_missing_client_fatal _ _ _ (Or.inr (by decide))

/-- Whatever the reconciliation scan selects comes from the positional
probe paths. -/
theorem mergeScan_probes_positional (fsO : Str → Option (List Nat)) (odir tn : Str) :
    ∀ (n : Nat) (r : Str × List Nat), mergeScan fsO odir tn n = some r →
      r.1 ∈ mergeProbePaths odir tn n := by
  intro n
  induction n with
  | zero => intro r h; exact Option.noConfusion h
  | succ k ih =>
    intro r h
    rcases hN : fsO (phaseArtifactPath odir tn (k + 1)) with _ | c
    · simp only [mergeScan, hN] at h
      exact List.mem_cons_of_mem _ (ih r h)
    · simp only [mergeScan, hN] at h
      by_cases hl : 0 < c.length
      · rw [if_pos hl] at h
        simp only [Option.some.injEq] at h
        subst h
        simp [mergeProbePaths, mergeProbeOrder]
      · rw [if_neg hl] at h
        exact List.mem_cons_of_mem _ (ih r h)

/-- C10: a workload declaring only `phase_2_*` and `phase_5_*` keys
assembles two phases whose artifact job names are `_phase1` and `_phase2`
(positional), both in `run_workload` and in `run_client_process`; the
reconciliation loop probes exactly the positional paths `_phase2.json`
then `_phase1.json`, and anything it selects comes from those positional
paths. -/
theorem artifact_names_positional :
    (parse_config_file c10Cfg).map
        (fun o => o.workloads.map (fun nw => nw.2.phases.length)) = some [2] ∧
    (parse_config_file c10Cfg).map (fun o => o.workloads.map (fun nw =>
        workloadModeEvents "out".data "w".data nw.2 "cached".data))
      = some [[Event.spawnMonitor "out/iostat/w_cached.iostat".data,
               Event.launchFio "w_cached_phase1".data,
               Event.launchFio "w_cached_phase2".data]] ∧
    (parse_config_file c10Cfg).map (fun o => o.workloads.map (fun nw =>
        run_client_events "client1".data nw.2 "direct".data))
      = some [[Event.launchFio "client1_direct_phase1".data,
               Event.launchFio "client1_direct_phase2".data]] ∧
    mergeProbePaths "out".data "w_cached".data 2
      = ["out/w_cached_phase2.json".data, "out/w_cached_phase1.json".data] ∧
    phaseJobName "w_cached".data 5 ∉
      ["w_cached_phase1".data, "w_cached_phase2".data] ∧
    (∀ (fsO : Str → Option (List Nat)) (r : Str × List Nat),
       mergeScan fsO "out".data "w_cached".data 2 = some r →
       r.1 ∈ mergeProbePaths "out".data "w_cached".data 2) := by
  refine ⟨by decide, by decide, by decide, by decide, by decide, ?_⟩
  intro fsO r h
  exact mergeScan_probes_positional fsO "out".data "w_cached".data 2 r h

/-- Witness for C10: the probe-membership conjunct applied at the concrete
artifact state where only position 1 exists. -/
theorem artifact_names_positional_witness :
    phaseArtifactPath "out".data "w_cached".data 1
      ∈ mergeProbePaths "out".data "w_cached".data 2 := by
  have h := artifact_names_positional.2.2.2.2.2 c10Fs
    (phaseArtifactPath "out".data "w_cached".data 1, [7]) (by decide)
  exact h

/-- Digits are not spaces or tabs. -/
theorem digit_not_spaceTab {c : Char} (h : c.isDigit = true) : isSpaceTab c = false := by
  by_cases h1 : c = ' '
  · subst h1; exact absurd h (by decide)
  · by_cases h2 : c = '\t'
    · subst h2; exact absurd h (by decide)
    · simp [isSpaceTab, h1, h2]

/-- `takeWhile` keeps a list all of whose elements satisfy `p`. -/
theorem takeWhile_all {p : Char → Bool} : ∀ {l : Str}, (∀ x ∈ l, p x = true) →
    l.takeWhile p = l := by
  intro l h
  induction l with
  | nil => rfl
  | cons a t ih =>
    rw [List.takeWhile_cons, h a (by simp)]
    simp [ih (fun x hx => h x (by simp [hx]))]

/-- `dropWhile` keeps a list none of whose elements satisfy `p`. -/
theorem dropWhile_none {p : Char → Bool} : ∀ {l : Str}, (∀ x ∈ l, p x = false) →
    l.dropWhile p = l := by
  intro l h
  cases l with
  | nil => rfl
  | cons a t => rw [List.dropWhile_cons, h a (by simp)]; simp

/-- On a nonempty all-digit string whose value fits in 64 bits, `stoull?`
returns its decimal value (beyond 2^64 the C++ call throws
`std::out_of_range`, modelled as `none`). -/
theorem stoull?_digits {d : Str} (hne : d ≠ []) (hd : ∀ x ∈ d, x.isDigit = true)
    (hbound : digitsToNat d < 2 ^ 64) :
    stoull? d = some (digitsToNat d) := by
  have hdrop : d.dropWhile isSpaceTab = d :=
    dropWhile_none (fun x hx => digit_not_spaceTab (hd x hx))
  have hhead : d.head? ≠ some '+' := by
    cases d with
    | nil => simp
    | cons a t =>
      intro hcontra
      simp only [List.head?_cons, Option.some.injEq] at hcontra
      subst hcontra
      exact absurd (hd '+' (by simp)) (by decide)
  have hpre : digitsPrefix? d = some (digitsToNat d) := by
    unfold digitsPrefix?
    rw [takeWhile_all hd]
    simp [List.isEmpty_iff, hne]
  unfold stoull?
  simp only [hdrop, if_neg hhead, hpre]
  rw [if_pos hbound]

/-- C8 counterexample: the claim's unbounded base-1024 product does not
hold on the code — `get_size_bytes` computes `stoull(numeric) *
multiplier` in 64-bit `uintmax_t`, so at `16777216T` (whose exact product
is 2^24 * 2^40 = 2^64) the program wraps to 0, not the claimed
2^64 bytes. -/
theorem size_product_wraps_mod_2_64 :
    get_size_bytes ("16777216T".data) = some 0 ∧
    digitsToNat "16777216".data * (1024 * 1024 * 1024 * 1024) = 2 ^ 64 ∧
    (0 : Nat) ≠ 2 ^ 64 := by
  refine ⟨by decide, by decide, by decide⟩

/-- C8 (amended): for every decimal digit string whose value fits in 64
bits (otherwise `std::stoull` throws) and suffix K/M/G/T (either case),
`get_size_bytes` returns the decimal value multiplied by the matching
power of 1024 reduced modulo 2^64 — base-1024 semantics in `uintmax_t`
arithmetic, so the exact product whenever it is below 2^64. -/
theorem get_size_bytes_suffix_base1024 (d : Str) (c : Char)
    (hne : d ≠ []) (hd : ∀ x ∈ d, x.isDigit = true)
    (hbound : digitsToNat d < 2 ^ 64) :
    ((c = 'K' ∨ c = 'k') →
      get_size_bytes (d ++ [c]) = some (digitsToNat d * 1024 % 2 ^ 64)) ∧
    ((c = 'M' ∨ c = 'm') →
      get_size_bytes (d ++ [c]) = some (digitsToNat d * (1024 * 1024) % 2 ^ 64)) ∧
    ((c = 'G' ∨ c = 'g') →
      get_size_bytes (d ++ [c]) = some (digitsToNat d * (1024 * 1024 * 1024) % 2 ^ 64)) ∧
    ((c = 'T' ∨ c = 't') →
      get_size_bytes (d ++ [c]) = some (digitsToNat d * (1024 * 1024 * 1024 * 1024) % 2 ^ 64)) := by
  have hlast : (d ++ [c]).getLast? = some c := List.getLast?_concat d
  have hdroplast : (d ++ [c]).dropLast = d := List.dropLast_concat
  have hst : stoull? (d ++ [c]).dropLast = some (digitsToNat d) := by
    rw [hdroplast]; exact stoull?_digits hne hd hbound
  refine ⟨?_, ?_, ?_, ?_⟩ <;> intro hc
  · unfold get_size_bytes
    rw [hlast]
    simp only [if_pos hc, hst, Option.map_some']
  · unfold get_size_bytes
    rw [hlast]
    have hnk : ¬ (c = 'K' ∨ c = 'k') := by rcases hc with rfl | rfl <;> decide
    simp only [if_neg hnk, if_pos hc, hst, Option.map_some']
  · unfold get_size_bytes
    rw [hlast]
    have hnk : ¬ (c = 'K' ∨ c = 'k') := by rcases hc with rfl | rfl <;> decide
    have hnm : ¬ (c = 'M' ∨ c = 'm') := by rcases hc with rfl | rfl <;> decide
    simp only [if_neg hnk, if_neg hnm, if_pos hc, hst, Option.map_some']
  · unfold get_size_bytes
    rw [hlast]
    have hnk : ¬ (c = 'K' ∨ c = 'k') := by rcases hc with rfl | rfl <;> decide
    have hnm : ¬ (c = 'M' ∨ c = 'm') := by rcases hc with rfl | rfl <;> decide
    have hng : ¬ (c = 'G' ∨ c = 'g') := by rcases hc with rfl | rfl <;> decide
    simp only [if_neg hnk, if_neg hnm, if_neg hng, if_pos hc, hst, Option.map_some']

/-- Witness for the amended C8 at the concrete input "16G", where the
64-bit product is exact. -/
theorem get_size_bytes_suffix_base1024_witness :
    get_size_bytes ("16G".data)
      = some (digitsToNat "16".data * (1024 * 1024 * 1024) % 2 ^ 64) ∧
    digitsToNat "16".data * (1024 * 1024 * 1024) % 2 ^ 64 = 17179869184 := by
  constructor
  · exact (get_size_bytes_suffix_base1024 "16".data 'G' (by decide) (by decide)
      (by decide)).2.2.1 (Or.inl rfl)
  · decide

/-- C7: a provisioning request for a file that already exists with actual
size at least the requested size takes the early-return path: the outcome
is `reuse` and zero filesystem-writing commands are issued. -/
theorem create_test_file_reuses_large_existing (fsz : Str) (actual expected : Nat)
    (hparse : get_size_bytes fsz = some expected) (hge : expected ≤ actual) :
    create_test_file fsz true actual = .reuse ∧
    provisionWriteCount (create_test_file fsz true actual) = 0 := by
  have h : create_test_file fsz true actual = .reuse := by
    unfold create_test_file
    rw [if_pos rfl, hparse]
    simp [Nat.le_of_eq, hge]
  exact ⟨h, by rw [h]; rfl⟩

/-- Witness for C7: a 1G request against an existing file of exactly 2^30
bytes is reused with zero writes. -/
theorem create_test_file_reuses_large_existing_witness :
    create_test_file "1G".data true 1073741824 = .reuse ∧
    provisionWriteCount (create_test_file "1G".data true 1073741824) = 0 :=
  create_test_file_reuses_large_existing "1G".data 1073741824 1073741824
    (by decide) (by decide)

end FairnessBench
